import Mathlib

/-!
Verification of the budget-tracking and spend-aggregation subsystem of the
Fintracker repository (Express + Mongoose server under `server/`).

The embedding models one authenticated owner's slice of the two collections
(every route filters by `userId`, so a single owner's data is closed under
all the operations below):

* `Expense` / `Income` documents mirror the mongoose transaction schemas
  (`description`, `amount`, `category`, `date`), with `amount : Int` as the
  idealisation of the JS number and `Date` as the calendar fields a JS `Date`
  exposes to the routes (`getFullYear`, month index, day of month, and
  milliseconds within the day).
* `Budget` mirrors `server/models/Budget.js`: `category`, `month` (the code
  stores one of the 12 English month names and converts it with
  `getMonthIndex`; validation admits only those names, so we carry the
  0-based index that bijection yields), `year`, `budgetAmount`,
  `spentAmount`.
* MongoDB semantics: `aggregate [$match, $group {$sum}]` is filter-then-sum,
  with `result[0]?.total || 0` giving `0` on an empty match;
  `findOneAndUpdate` updates the first document in natural order that
  matches the query.
-/

namespace Fintracker

/-- Calendar instant as the route code observes it through a JS `Date`:
year (`getFullYear`), 0-based month index, 1-based day of month, and
milliseconds elapsed since that day's local midnight.  Comparison of JS
`Date`s by timestamp coincides with lexicographic comparison of these
fields for calendar dates. -/
structure Date where
  year : Int
  month : Nat
  day : Nat
  ms : Nat
deriving DecidableEq, Repr

/-- Timestamp order on dates: lexicographic on (year, month, day, ms),
mirroring `$gte`/`$lte` comparisons of BSON dates. -/
def dateLE (a b : Date) : Bool :=
  if a.year ≠ b.year then decide (a.year < b.year)
  else if a.month ≠ b.month then decide (a.month < b.month)
  else if a.day ≠ b.day then decide (a.day < b.day)
  else decide (a.ms ≤ b.ms)

/-- JS `Date` leap-year rule (proleptic Gregorian). -/
def isLeap (y : Int) : Bool := (y % 4 == 0 && y % 100 != 0) || y % 400 == 0

/-- Number of days in month `m` (0-based index) of year `y`, as produced by
`new Date(y, m + 1, 0).getDate()`. -/
def daysInMonth (y : Int) (m : Nat) : Nat :=
  if m = 1 then (if isLeap y then 29 else 28)
  else if m = 3 ∨ m = 5 ∨ m = 8 ∨ m = 10 then 30
  else 31

/-- `new Date(year, monthIndex, 1)`: midnight starting the first day of the
month — the `startDate` of every budget scan in `server/routes/budget.js`. -/
def monthStart (y : Int) (m : Nat) : Date := ⟨y, m, 1, 0⟩

/-- `new Date(year, monthIndex + 1, 0)`: midnight starting the *last* day of
the month — the `endDate` of every budget scan in `server/routes/budget.js`
(day 0 of the next month, time-of-day 00:00:00.000). -/
def monthEnd (y : Int) (m : Nat) : Date := ⟨y, m, daysInMonth y m, 0⟩

/-- The greatest representable instant inside month `m` of year `y`
(23:59:59.999 on its last day). -/
def lastInstant (y : Int) (m : Nat) : Date := ⟨y, m, daysInMonth y m, 86399999⟩

/-- An expense document (one owner's slice of the `Expense` collection). -/
structure Expense where
  id : Nat
  description : String
  amount : Int
  category : String
  date : Date
deriving DecidableEq, Repr

/-- An income document (one owner's slice of the `Income` collection). -/
structure Income where
  id : Nat
  description : String
  amount : Int
  category : String
  date : Date
deriving DecidableEq, Repr

/-- A budget document (`server/models/Budget.js`).  `month` is the 0-based
index `getMonthIndex` assigns to the stored month name. -/
structure Budget where
  id : Nat
  category : String
  month : Nat
  year : Int
  budgetAmount : Int
  spentAmount : Int
deriving DecidableEq, Repr

/-- One owner's persisted state: the three collections the budget subsystem
touches. -/
structure State where
  expenses : List Expense
  incomes : List Income
  budgets : List Budget
deriving DecidableEq, Repr

/-- `date: { $gte: s, $lte: e }`. -/
def inRangeB (d s e : Date) : Bool := dateLE s d && dateLE d e

/-- The `$match` predicate of the budget scans: `category` equality plus the
`[monthStart, monthEnd]` date window. -/
def matchesScan (e : Expense) (c : String) (m : Nat) (y : Int) : Bool :=
  decide (e.category = c) && inRangeB e.date (monthStart y m) (monthEnd y m)

/-- `Expense.aggregate [{$match: {category, date: {$gte,$lte}}}, {$group:
{$sum: '$amount'}}]` followed by `result[0]?.total || 0`: the sum of the
matching amounts, `0` when nothing matches. -/
def scanSpent (es : List Expense) (c : String) (m : Nat) (y : Int) : Int :=
  ((es.filter (fun e => matchesScan e c m y)).map (fun e => e.amount)).sum

/-- The contribution of a single expense to a scan. -/
def contrib (e : Expense) (c : String) (m : Nat) (y : Int) : Int :=
  if matchesScan e c m y then e.amount else 0

/-- Budget-lookup key used by every `Budget.findOneAndUpdate` in the expense
routes: `{userId, category, month, year}`. -/
def budgetKeyMatches (b : Budget) (c : String) (m : Nat) (y : Int) : Bool :=
  decide (b.category = c) && decide (b.month = m) && decide (b.year = y)

/-- `Budget.findOneAndUpdate({category, month, year}, {$inc: {spentAmount:
δ}})`: bump the first budget matching the key; no-op when none matches.
No clamping is applied (`runValidators` is not set on these calls, so the
schema's `min: 0` on `spentAmount` is not enforced). -/
def incFirst (bs : List Budget) (c : String) (m : Nat) (y : Int) (δ : Int) :
    List Budget :=
  match bs with
  | [] => []
  | b :: rest =>
    if budgetKeyMatches b c m y then
      { b with spentAmount := b.spentAmount + δ } :: rest
    else
      b :: incFirst rest c m y δ

/-- `Expense.findOne({_id, userId})`: first document with the id. -/
def findExpense (s : State) (id : Nat) : Option Expense :=
  s.expenses.find? (fun e => decide (e.id = id))

/-- Replace the first expense carrying `id` (the effect of
`Expense.findOneAndUpdate({_id, userId}, {...})`). -/
def replaceFirstExpense : List Expense → Nat → Expense → List Expense
  | [], _, _ => []
  | e :: rest, id, e1 =>
    if e.id = id then e1 :: rest else e :: replaceFirstExpense rest id e1

/-- Remove the first expense carrying `id` (the effect of
`Expense.findOneAndDelete({_id, userId})`). -/
def removeFirstExpense : List Expense → Nat → List Expense
  | [], _ => []
  | e :: rest, id => if e.id = id then rest else e :: removeFirstExpense rest id

/-- POST `/api/expenses` (routes/expenses.js): save the new expense, then
`$inc` the `spentAmount` of the budget keyed by the expense's category and
its date's `(month, year)` (`toLocaleString month` / `getFullYear`). -/
def createExpense (s : State) (id : Nat) (description : String) (amount : Int)
    (category : String) (date : Date) : State :=
  { s with
    expenses := s.expenses ++ [⟨id, description, amount, category, date⟩],
    budgets := incFirst s.budgets category date.month date.year amount }

/-- PUT `/api/expenses/:id`: look up the old expense (404 leaves everything
unchanged), overwrite it, then reconcile budgets.  The branch is on
*category equality only*: same category ⇒ one `$inc` of `A1 − A0` at the
*new* date's bucket; different category ⇒ `$inc` of `−A0` at the old
(category, bucket) and `$inc` of `A1` at the new one. -/
def updateExpense (s : State) (id : Nat) (description : String) (amount : Int)
    (category : String) (date : Date) : State :=
  match findExpense s id with
  | none => s
  | some old =>
    { s with
      expenses := replaceFirstExpense s.expenses id
        ⟨id, description, amount, category, date⟩,
      budgets :=
        if old.category = category then
          incFirst s.budgets category date.month date.year (amount - old.amount)
        else
          incFirst
            (incFirst s.budgets old.category old.date.month old.date.year
              (-old.amount))
            category date.month date.year amount }

/-- DELETE `/api/expenses/:id`: remove the expense (404 leaves everything
unchanged), then `$inc` the matching budget's `spentAmount` by `−amount`. -/
def deleteExpense (s : State) (id : Nat) : State :=
  match findExpense s id with
  | none => s
  | some ex =>
    { s with
      expenses := removeFirstExpense s.expenses id,
      budgets :=
        incFirst s.budgets ex.category ex.date.month ex.date.year (-ex.amount) }

/-- POST `/api/budget/refresh`: for every budget of the owner, recompute
`spentAmount` by the bounded scan over the budget's own category and month
window, and save it. -/
def bulkRefresh (s : State) : State :=
  { s with
    budgets := s.budgets.map (fun b =>
      { b with spentAmount := scanSpent s.expenses b.category b.month b.year }) }

/-- A *normal* date is one the scan window of its own bucket contains; every
timestamp from midnight of the first day up to and including midnight
starting the last day of its month is normal, a later time on the last day
is not. -/
def normalDate (d : Date) : Bool :=
  inRangeB d (monthStart d.year d.month) (monthEnd d.year d.month)

/-- The compound key the unique index of `server/models/Budget.js` protects
(within one owner). -/
def budgetKey (b : Budget) : String × Nat × Int := (b.category, b.month, b.year)

/-- Executable check that a key list is duplicate-free. -/
def noDupKeys : List (String × Nat × Int) → Bool
  | [] => true
  | k :: rest => rest.all (fun k' => decide (k' ≠ k)) && noDupKeys rest

/-- Executable form of the unique compound index within one owner's slice. -/
def uniqueKeysB (bs : List Budget) : Bool := noDupKeys (bs.map budgetKey)

/-- The consistency invariant of the spec: every budget's cached
`spentAmount` equals the bounded scan over the current ledger. -/
def consistentB (s : State) : Bool :=
  s.budgets.all (fun b =>
    decide (b.spentAmount = scanSpent s.expenses b.category b.month b.year))

/-- All expense dates are normal (each lies inside its own month's scan
window). -/
def expensesNormal (es : List Expense) : Bool :=
  es.all (fun e => normalDate e.date)

/-- An expense-route mutation, as in `routes/expenses.js`. -/
inductive Op where
  | createE (id : Nat) (description : String) (amount : Int) (category : String)
      (date : Date)
  | updateE (id : Nat) (description : String) (amount : Int) (category : String)
      (date : Date)
  | deleteE (id : Nat)
deriving DecidableEq, Repr

/-- Dispatch one mutation to its handler. -/
def applyOp (s : State) : Op → State
  | .createE id d a c dt => createExpense s id d a c dt
  | .updateE id d a c dt => updateExpense s id d a c dt
  | .deleteE id => deleteExpense s id

/-- Run a sequence of expense mutations. -/
def applyOps (s : State) (ops : List Op) : State := ops.foldl applyOp s

/-- Side conditions under which one mutation keeps the cache consistent:
its date is normal, and an update that keeps the category also keeps the
`(month, year)` bucket (the code's single-`$inc` branch assumes this). -/
def opOk (s : State) : Op → Bool
  | .createE _ _ _ _ dt => normalDate dt
  | .updateE id _ _ c dt =>
      normalDate dt &&
      (match findExpense s id with
       | none => true
       | some old =>
         if old.category = c then
           decide (old.date.month = dt.month) && decide (old.date.year = dt.year)
         else true)
  | .deleteE _ => true

/-- `opOk` holds at every step of the run. -/
def opsAdmissible (s : State) : List Op → Bool
  | [] => true
  | op :: rest => opOk s op && opsAdmissible (applyOp s op) rest

/-- Outcome of POST `/api/budget`.  `validationFailed` is the
`handleValidationErrors` response (`400 {message: 'Validation failed',
errors}`), `conflict` the duplicate-budget response (`400 {message: 'Budget
already exists for <category> in <month> <year>'}`), `created` the `201`
with the saved document. -/
inductive BudgetCreateResponse where
  | validationFailed
  | conflict (category : String) (month : Nat) (year : Int)
  | created (b : Budget)
deriving DecidableEq, Repr

/-- `validateBudget`: non-empty category, numeric `budgetAmount > 0`,
`month` one of the 12 month names (hence an index below 12), integer year
in `[2020, 2030]`. -/
def validBudgetInput (category : String) (budgetAmount : Int) (m : Nat)
    (y : Int) : Bool :=
  decide (category ≠ "") && decide (0 < budgetAmount) && decide (m < 12) &&
    decide (2020 ≤ y) && decide (y ≤ 2030)

/-- POST `/api/budget`: validate, reject a duplicate `(category, month,
year)` with the conflict message, otherwise seed `spentAmount` by the
bounded scan and save. -/
def postBudget (s : State) (id : Nat) (category : String) (budgetAmount : Int)
    (m : Nat) (y : Int) : State × BudgetCreateResponse :=
  if validBudgetInput category budgetAmount m y then
    match s.budgets.find? (fun b => budgetKeyMatches b category m y) with
    | some _ => (s, .conflict category m y)
    | none =>
      let b : Budget :=
        ⟨id, category, m, y, budgetAmount, scanSpent s.expenses category m y⟩
      ({ s with budgets := s.budgets ++ [b] }, .created b)
  else (s, .validationFailed)

/-- Outcome of PUT `/api/budget/:id`.  `conflict` is the caught duplicate-key
error (`11000`) raised when the new key collides with another budget. -/
inductive BudgetUpdateResponse where
  | validationFailed
  | notFound
  | conflict
  | updated (b : Budget)
deriving DecidableEq, Repr

/-- Replace the first budget carrying `id`. -/
def replaceFirstBudget : List Budget → Nat → Budget → List Budget
  | [], _, _ => []
  | b :: rest, id, b1 =>
    if b.id = id then b1 :: rest else b :: replaceFirstBudget rest id b1

/-- PUT `/api/budget/:id`: validate, 404 when the id is not the owner's,
reject a key collision with another budget, otherwise overwrite category /
`budgetAmount` / month / year and recompute `spentAmount` from scratch by
the bounded scan over the *new* category and month window. -/
def putBudget (s : State) (id : Nat) (category : String) (budgetAmount : Int)
    (m : Nat) (y : Int) : State × BudgetUpdateResponse :=
  if validBudgetInput category budgetAmount m y then
    match s.budgets.find? (fun b => decide (b.id = id)) with
    | none => (s, .notFound)
    | some _ =>
      if s.budgets.any (fun b => decide (b.id ≠ id) && budgetKeyMatches b category m y) then
        (s, .conflict)
      else
        let b1 : Budget :=
          ⟨id, category, m, y, budgetAmount, scanSpent s.expenses category m y⟩
        ({ s with budgets := replaceFirstBudget s.budgets id b1 }, .updated b1)
  else (s, .validationFailed)

/-- `Income.findOne({_id, userId})`. -/
def findIncome (s : State) (id : Nat) : Option Income :=
  s.incomes.find? (fun i => decide (i.id = id))

/-- Replace the first income carrying `id`. -/
def replaceFirstIncome : List Income → Nat → Income → List Income
  | [], _, _ => []
  | i :: rest, id, i1 =>
    if i.id = id then i1 :: rest else i :: replaceFirstIncome rest id i1

/-- Remove the first income carrying `id`. -/
def removeFirstIncome : List Income → Nat → List Income
  | [], _ => []
  | i :: rest, id => if i.id = id then rest else i :: removeFirstIncome rest id

/-- POST `/api/income` (routes/income.js): save the document; no other
collection is touched. -/
def createIncome (s : State) (id : Nat) (description : String) (amount : Int)
    (category : String) (date : Date) : State :=
  { s with incomes := s.incomes ++ [⟨id, description, amount, category, date⟩] }

/-- PUT `/api/income/:id`: overwrite the document (404 leaves everything
unchanged); no other collection is touched. -/
def updateIncome (s : State) (id : Nat) (description : String) (amount : Int)
    (category : String) (date : Date) : State :=
  match findIncome s id with
  | none => s
  | some _ =>
    { s with incomes :=
        replaceFirstIncome s.incomes id ⟨id, description, amount, category, date⟩ }

/-- DELETE `/api/income/:id`: remove the document (404 leaves everything
unchanged); no other collection is touched. -/
def deleteIncome (s : State) (id : Nat) : State :=
  match findIncome s id with
  | none => s
  | some _ => { s with incomes := removeFirstIncome s.incomes id }

/-- `date: { $gte: sd, $lte: ed }` as a predicate on a document date. -/
def dateFilter (sd ed d : Date) : Bool := dateLE sd d && dateLE d ed

/-- The `summary` object of GET `/api/expenses/stats/summary`: group-sum,
count and average over the matched documents, with the zeroed default when
nothing matches (`stats[0] || {totalExpenses: 0, count: 0,
averageExpense: 0}`). -/
structure ExpenseStatsSummary where
  totalExpenses : Int
  count : Nat
  averageExpense : Rat
deriving DecidableEq, Repr

/-- GET `/api/expenses/stats/summary`: when both query dates are present the
match stage takes the literal `[startDate, endDate]` window (no check that
`start ≤ end`, no swap); otherwise all the owner's expenses.  The route has
no rejection branch — it always answers with a computed summary. -/
def expenseStatsSummary (es : List Expense) (range : Option (Date × Date)) :
    ExpenseStatsSummary :=
  let matched := match range with
    | none => es
    | some (sd, ed) => es.filter (fun e => dateFilter sd ed e.date)
  match matched with
  | [] => ⟨0, 0, 0⟩
  | l => ⟨(l.map (fun e => e.amount)).sum, l.length,
      ((l.map (fun e => e.amount)).sum : Rat) / (l.length : Rat)⟩

/-- `end.setHours(23, 59, 59, 999)` in GET `/api/reports`. -/
def endOfDay (d : Date) : Date := ⟨d.year, d.month, d.day, 86399999⟩

/-- The period totals of GET `/api/reports` for an explicit `[start, end]`
query: the end instant is first pushed to the end of its calendar day, then
income and expense totals and counts are group-summed over the literal
window (again no `start ≤ end` check and no swap). -/
def reportPeriodTotals (s : State) (startD endD : Date) :
    Int × Nat × Int × Nat :=
  let e := endOfDay endD
  let incs := s.incomes.filter (fun i => dateFilter startD e i.date)
  let exps := s.expenses.filter (fun x => dateFilter startD e x.date)
  ((incs.map (fun i => i.amount)).sum, incs.length,
    (exps.map (fun x => x.amount)).sum, exps.length)

/-- JS month-index normalisation: `new Date(y, m, ...)` with an arbitrary
integer `m` lands in year `y + ⌊m / 12⌋`, month `m mod 12`. -/
def jsYM (y : Int) (m : Int) : Int × Nat := (y + (m - m % 12) / 12, (m % 12).toNat)

/-- `new Date(y, m + 1, 0, 23, 59, 59)`: the last day of month `m` at
23:59:59.000 — the month window upper bound of the dashboard/report monthly
loops (unlike the budget scans, these cover the last day). -/
def monthEndOfDay (y : Int) (m : Nat) : Date := ⟨y, m, daysInMonth y m, 86399000⟩

/-- One `{month, income, expenses}` tuple of the monthly series, tagged with
its normalised `(year, month)` bucket (the code renders the bucket as a
locale month name). -/
structure MonthPoint where
  bucketYear : Int
  bucketMonth : Nat
  income : Int
  expenses : Int
deriving DecidableEq, Repr

/-- Income total of a month window (`aggregate $match date range, $group
$sum`, `?.total || 0`). -/
def sumIncomesIn (is : List Income) (sd ed : Date) : Int :=
  ((is.filter (fun i => dateFilter sd ed i.date)).map (fun i => i.amount)).sum

/-- Expense total of a month window. -/
def sumExpensesIn (es : List Expense) (sd ed : Date) : Int :=
  ((es.filter (fun e => dateFilter sd ed e.date)).map (fun e => e.amount)).sum

/-- The `monthlyData` loop of GET `/api/dashboard` (and, with an extra
`balance` field, of GET `/api/reports`): `for (i = 5; i >= 0; i--)` push one
tuple for the month `i` months before the current one, unconditionally —
entry `j` of the result is the month `5 − j` months back. -/
def monthlySeries (is : List Income) (es : List Expense) (now : Date) :
    List MonthPoint :=
  (List.range 6).map (fun j =>
    let ym := jsYM now.year ((now.month : Int) - ((5 - j : Nat) : Int))
    { bucketYear := ym.1, bucketMonth := ym.2,
      income := sumIncomesIn is (monthStart ym.1 ym.2) (monthEndOfDay ym.1 ym.2),
      expenses := sumExpensesIn es (monthStart ym.1 ym.2) (monthEndOfDay ym.1 ym.2) })

/-- The per-budget `spentAmount` delta the expense-update handler applies,
as a function of the budget's key `(c, m, y)`: with unchanged category a
single `A1 − A0` adjustment at the *new* date's bucket (whatever happened
to the date), otherwise `−A0` at the old `(category, bucket)` and `+A1` at
the new one. -/
def updateDelta (old : Expense) (a1 : Int) (c1 : String) (d1 : Date)
    (c : String) (m : Nat) (y : Int) : Int :=
  if old.category = c1 then
    (if c = c1 ∧ m = d1.month ∧ y = d1.year then a1 - old.amount else 0)
  else
    (if c = old.category ∧ m = old.date.month ∧ y = old.date.year then
      -old.amount else 0)
    + (if c = c1 ∧ m = d1.month ∧ y = d1.year then a1 else 0)

/-! ### Basic facts about the date order and the scan window -/

/-- Unfolding of `dateLE` into its lexicographic meaning. -/
lemma dateLE_iff (a b : Date) :
    dateLE a b = true ↔
      a.year < b.year ∨ (a.year = b.year ∧
        (a.month < b.month ∨ (a.month = b.month ∧
          (a.day < b.day ∨ (a.day = b.day ∧ a.ms ≤ b.ms))))) := by
  unfold dateLE
  split_ifs <;> simp_all

/-- The date order is transitive. -/
lemma dateLE_trans {a b c : Date} (h1 : dateLE a b = true)
    (h2 : dateLE b c = true) : dateLE a c = true := by
  rw [dateLE_iff] at h1 h2 ⊢
  omega

/-- Every month has at least one day. -/
lemma daysInMonth_pos (y : Int) (m : Nat) : 1 ≤ daysInMonth y m := by
  unfold daysInMonth
  split_ifs <;> omega

/-- A date lying inside the scan window `[monthStart y m, monthEnd y m]`
necessarily carries month index `m` and year `y`: windows of distinct
`(month, year)` buckets are disjoint. -/
lemma inRangeB_bucket {d : Date} {y : Int} {m : Nat}
    (h : inRangeB d (monthStart y m) (monthEnd y m) = true) :
    d.year = y ∧ d.month = m := by
  unfold inRangeB monthStart monthEnd at h
  rw [Bool.and_eq_true, dateLE_iff, dateLE_iff] at h
  simp only at h
  omega

/-- For a normal date the scan membership test for bucket `(y, m)` is
exactly the bucket-equality test the incremental routes use. -/
lemma matchesScan_of_normal {e : Expense} (h : normalDate e.date = true)
    (c : String) (m : Nat) (y : Int) :
    matchesScan e c m y =
      decide (e.category = c ∧ m = e.date.month ∧ y = e.date.year) := by
  by_cases hb : m = e.date.month ∧ y = e.date.year
  · obtain ⟨hm, hy⟩ := hb
    subst hm; subst hy
    unfold matchesScan
    unfold normalDate at h
    rw [h]
    by_cases hc : e.category = c <;> simp [hc]
  · have hr : inRangeB e.date (monthStart y m) (monthEnd y m) = false := by
      rcases hb' : inRangeB e.date (monthStart y m) (monthEnd y m) with _ | _
      · rfl
      · exact absurd (by
          have := inRangeB_bucket hb'
          exact ⟨this.2.symm, this.1.symm⟩) hb
    unfold matchesScan
    rw [hr]
    simp [hb]

/-- The contribution of a normal-dated expense to a scan is its amount at
exactly its own `(category, month, year)` key and `0` elsewhere. -/
lemma contrib_of_normal {e : Expense} (h : normalDate e.date = true)
    (c : String) (m : Nat) (y : Int) :
    contrib e c m y =
      if e.category = c ∧ m = e.date.month ∧ y = e.date.year then e.amount
      else 0 := by
  unfold contrib
  rw [matchesScan_of_normal h]
  by_cases hk : e.category = c ∧ m = e.date.month ∧ y = e.date.year <;>
    simp [hk]

/-! ### How the scans respond to ledger edits -/

lemma scanSpent_nil (c : String) (m : Nat) (y : Int) :
    scanSpent [] c m y = 0 := rfl

lemma scanSpent_cons (e : Expense) (es : List Expense) (c : String) (m : Nat)
    (y : Int) :
    scanSpent (e :: es) c m y = contrib e c m y + scanSpent es c m y := by
  unfold scanSpent contrib
  rcases h : matchesScan e c m y with _ | _ <;>
    simp [List.filter_cons, h]

lemma scanSpent_append (es₁ es₂ : List Expense) (c : String) (m : Nat)
    (y : Int) :
    scanSpent (es₁ ++ es₂) c m y = scanSpent es₁ c m y + scanSpent es₂ c m y := by
  induction es₁ with
  | nil => simp [scanSpent_nil, scanSpent]
  | cons e es ih =>
    rw [List.cons_append, scanSpent_cons, scanSpent_cons, ih]
    ring

/-- Removing the first expense with a given id subtracts exactly that
expense's contribution from every scan. -/
lemma scanSpent_removeFirst {es : List Expense} {id : Nat} {e0 : Expense}
    (h : es.find? (fun e => decide (e.id = id)) = some e0)
    (c : String) (m : Nat) (y : Int) :
    scanSpent (removeFirstExpense es id) c m y =
      scanSpent es c m y - contrib e0 c m y := by
  induction es with
  | nil => simp at h
  | cons e es ih =>
    by_cases he : e.id = id
    · rw [List.find?_cons_of_pos _ (by simpa using he)] at h
      obtain rfl : e = e0 := by simpa using h
      unfold removeFirstExpense
      rw [if_pos he, scanSpent_cons]
      ring
    · rw [List.find?_cons_of_neg _ (by simpa using he)] at h
      unfold removeFirstExpense
      rw [if_neg he, scanSpent_cons, scanSpent_cons, ih h]
      ring

/-- Replacing the first expense with a given id swaps its contribution for
the new one's in every scan. -/
lemma scanSpent_replaceFirst {es : List Expense} {id : Nat} {e0 : Expense}
    (h : es.find? (fun e => decide (e.id = id)) = some e0) (e1 : Expense)
    (c : String) (m : Nat) (y : Int) :
    scanSpent (replaceFirstExpense es id e1) c m y =
      scanSpent es c m y - contrib e0 c m y + contrib e1 c m y := by
  induction es with
  | nil => simp at h
  | cons e es ih =>
    by_cases he : e.id = id
    · rw [List.find?_cons_of_pos _ (by simpa using he)] at h
      obtain rfl : e = e0 := by simpa using h
      unfold replaceFirstExpense
      rw [if_pos he, scanSpent_cons, scanSpent_cons]
      ring
    · rw [List.find?_cons_of_neg _ (by simpa using he)] at h
      unfold replaceFirstExpense
      rw [if_neg he, scanSpent_cons, scanSpent_cons, ih h]
      ring

/-! ### Budget keys and the behaviour of `incFirst`

The schema declares `budgetSchema.index({userId, category, month, year},
{unique: true})`, so within one owner's slice no two budgets share a
`(category, month, year)` key.  The lemmas below assume that uniqueness and
turn the first-match `$inc` into a pointwise description. -/

lemma budgetKeyMatches_iff (b : Budget) (c : String) (m : Nat) (y : Int) :
    budgetKeyMatches b c m y = true ↔ budgetKey b = (c, m, y) := by
  unfold budgetKeyMatches budgetKey
  simp [and_assoc]

lemma budgetKeyMatches_true_iff (b : Budget) (c : String) (m : Nat) (y : Int) :
    budgetKeyMatches b c m y = true ↔
      (b.category = c ∧ b.month = m ∧ b.year = y) := by
  unfold budgetKeyMatches
  simp [and_assoc]

lemma budgetKeyMatches_bump (b : Budget) (δ : Int) (c : String) (m : Nat)
    (y : Int) :
    budgetKeyMatches { b with spentAmount := b.spentAmount + δ } c m y =
      budgetKeyMatches b c m y := rfl

lemma uniqueKeysB_cons {b : Budget} {bs : List Budget}
    (h : uniqueKeysB (b :: bs) = true) :
    (∀ b' ∈ bs, budgetKey b' ≠ budgetKey b) ∧ uniqueKeysB bs = true := by
  unfold uniqueKeysB at h
  rw [List.map_cons] at h
  simp only [noDupKeys] at h
  rw [Bool.and_eq_true, List.all_eq_true] at h
  refine ⟨fun b' hb' => ?_, h.2⟩
  have := h.1 (budgetKey b') (List.mem_map_of_mem budgetKey hb')
  simpa using this

/-- `incFirst` never changes the key fields of any budget. -/
lemma incFirst_map_key (bs : List Budget) (c : String) (m : Nat) (y : Int)
    (δ : Int) :
    (incFirst bs c m y δ).map budgetKey = bs.map budgetKey := by
  induction bs with
  | nil => rfl
  | cons b rest ih =>
    unfold incFirst
    by_cases hb : budgetKeyMatches b c m y = true
    · rw [if_pos hb]
      simp [budgetKey]
    · rw [if_neg hb]
      simp [ih]

/-- `incFirst` preserves key uniqueness. -/
lemma uniqueKeysB_incFirst {bs : List Budget} (h : uniqueKeysB bs = true)
    (c : String) (m : Nat) (y : Int) (δ : Int) :
    uniqueKeysB (incFirst bs c m y δ) = true := by
  unfold uniqueKeysB
  rw [incFirst_map_key]
  exact h

/-- Under key uniqueness, the first-match `$inc` is the pointwise map that
bumps every budget whose key matches (there is at most one). -/
lemma incFirst_eq_map {bs : List Budget} (hu : uniqueKeysB bs = true)
    (c : String) (m : Nat) (y : Int) (δ : Int) :
    incFirst bs c m y δ =
      bs.map (fun b =>
        if budgetKeyMatches b c m y then
          { b with spentAmount := b.spentAmount + δ }
        else b) := by
  induction bs with
  | nil => rfl
  | cons b rest ih =>
    obtain ⟨hdist, hrest⟩ := uniqueKeysB_cons hu
    unfold incFirst
    by_cases hb : budgetKeyMatches b c m y = true
    · rw [if_pos hb, List.map_cons, if_pos hb]
      congr 1
      have hnone : ∀ b' ∈ rest, budgetKeyMatches b' c m y = false := by
        intro b' hb'
        rcases hmm : budgetKeyMatches b' c m y with _ | _
        · rfl
        · exact absurd
            (((budgetKeyMatches_iff b' c m y).mp hmm).trans
              ((budgetKeyMatches_iff b c m y).mp hb).symm)
            (hdist b' hb')
      calc rest = rest.map id := (List.map_id rest).symm
        _ = rest.map (fun b' =>
              if budgetKeyMatches b' c m y then
                { b' with spentAmount := b'.spentAmount + δ }
              else b') := by
              apply List.map_congr_left
              intro b' hb'
              rw [hnone b' hb']
              simp
    · rw [if_neg hb, List.map_cons, if_neg hb, ih hrest]

/-! ### Consistency of the incremental reconciliation -/

lemma consistentB_iff (s : State) :
    consistentB s = true ↔
      ∀ b ∈ s.budgets,
        b.spentAmount = scanSpent s.expenses b.category b.month b.year := by
  unfold consistentB
  simp [List.all_eq_true]

/-- Pointwise effect of a single first-match `$inc` on a consistent budget
list: if the fresh scans differ from the old ones by `δ` at exactly the key
`(c, m, y)`, the bumped list is consistent with the fresh scans. -/
lemma incFirst_pointwise {bs : List Budget} (hu : uniqueKeysB bs = true)
    (c : String) (m : Nat) (y : Int) (δ : Int)
    (f g : String → Nat → Int → Int)
    (hf : ∀ b ∈ bs, b.spentAmount = f b.category b.month b.year)
    (hg : ∀ c' m' y', g c' m' y' =
      f c' m' y' + (if c = c' ∧ m' = m ∧ y' = y then δ else 0)) :
    ∀ b ∈ incFirst bs c m y δ, b.spentAmount = g b.category b.month b.year := by
  rw [incFirst_eq_map hu]
  intro b hb
  rw [List.mem_map] at hb
  obtain ⟨b0, hb0, rfl⟩ := hb
  by_cases hk : budgetKeyMatches b0 c m y = true
  · obtain ⟨hc, hm, hy⟩ : b0.category = c ∧ b0.month = m ∧ b0.year = y := by
      have := (budgetKeyMatches_iff b0 c m y).mp hk
      unfold budgetKey at this
      exact ⟨congrArg Prod.fst this,
        congrArg Prod.fst (congrArg Prod.snd this),
        congrArg Prod.snd (congrArg Prod.snd this)⟩
    rw [if_pos hk]
    show b0.spentAmount + δ = g b0.category b0.month b0.year
    rw [hg]
    rw [if_pos ⟨hc.symm, hm, hy⟩, hf b0 hb0]
  · have hene : ¬(c = b0.category ∧ b0.month = m ∧ b0.year = y) := by
      intro ⟨hc, hm, hy⟩
      exact hk ((budgetKeyMatches_iff b0 c m y).mpr (by
        unfold budgetKey
        rw [hc, hm, hy]))
    rw [if_neg hk]
    rw [hg, if_neg hene, add_zero]
    exact hf b0 hb0

lemma all_replaceFirstExpense {p : Expense → Bool} {es : List Expense}
    (h : es.all p = true) {e1 : Expense} (h1 : p e1 = true) (id : Nat) :
    (replaceFirstExpense es id e1).all p = true := by
  induction es with
  | nil => rfl
  | cons e rest ih =>
    rw [List.all_cons, Bool.and_eq_true] at h
    unfold replaceFirstExpense
    by_cases he : e.id = id
    · rw [if_pos he, List.all_cons, Bool.and_eq_true]
      exact ⟨h1, h.2⟩
    · rw [if_neg he, List.all_cons, Bool.and_eq_true]
      exact ⟨h.1, ih h.2⟩

lemma all_removeFirstExpense {p : Expense → Bool} {es : List Expense}
    (h : es.all p = true) (id : Nat) :
    (removeFirstExpense es id).all p = true := by
  induction es with
  | nil => rfl
  | cons e rest ih =>
    rw [List.all_cons, Bool.and_eq_true] at h
    unfold removeFirstExpense
    by_cases he : e.id = id
    · rw [if_pos he]
      exact h.2
    · rw [if_neg he, List.all_cons, Bool.and_eq_true]
      exact ⟨h.1, ih h.2⟩

/-- One admissible expense mutation preserves consistency, key uniqueness
and normality of the ledger dates. -/
lemma applyOp_good {s : State} {op : Op} (hc : consistentB s = true)
    (hu : uniqueKeysB s.budgets = true)
    (hn : expensesNormal s.expenses = true) (hop : opOk s op = true) :
    consistentB (applyOp s op) = true ∧
      uniqueKeysB (applyOp s op).budgets = true ∧
      expensesNormal (applyOp s op).expenses = true := by
  cases op with
  | createE id desc a c dt =>
    have hnd : normalDate dt = true := hop
    refine ⟨?_, uniqueKeysB_incFirst hu c dt.month dt.year a, ?_⟩
    · rw [consistentB_iff]
      show ∀ b ∈ incFirst s.budgets c dt.month dt.year a, _
      apply incFirst_pointwise hu c dt.month dt.year a
        (fun c' m' y' => scanSpent s.expenses c' m' y')
      · exact (consistentB_iff s).mp hc
      · intro c' m' y'
        show scanSpent (s.expenses ++ [⟨id, desc, a, c, dt⟩]) c' m' y' = _
        rw [scanSpent_append]
        congr 1
        rw [scanSpent_cons, scanSpent_nil, add_zero]
        exact contrib_of_normal (e := ⟨id, desc, a, c, dt⟩) hnd c' m' y'
    · show expensesNormal (s.expenses ++ [⟨id, desc, a, c, dt⟩]) = true
      unfold expensesNormal at hn ⊢
      rw [List.all_append, Bool.and_eq_true]
      exact ⟨hn, by simpa using hnd⟩
  | deleteE id =>
    simp only [applyOp]
    unfold deleteExpense
    cases hfind : findExpense s id with
    | none => exact ⟨hc, hu, hn⟩
    | some ex =>
      have hmem : ex ∈ s.expenses := List.mem_of_find?_eq_some hfind
      have hnd : normalDate ex.date = true := by
        unfold expensesNormal at hn
        rw [List.all_eq_true] at hn
        exact hn ex hmem
      refine ⟨?_, uniqueKeysB_incFirst hu _ _ _ _, ?_⟩
      · rw [consistentB_iff]
        show ∀ b ∈ incFirst s.budgets ex.category ex.date.month ex.date.year
          (-ex.amount), _
        apply incFirst_pointwise hu _ _ _ _
          (fun c' m' y' => scanSpent s.expenses c' m' y')
        · exact (consistentB_iff s).mp hc
        · intro c' m' y'
          show scanSpent (removeFirstExpense s.expenses id) c' m' y' = _
          rw [scanSpent_removeFirst hfind, contrib_of_normal hnd]
          by_cases hcond : ex.category = c' ∧ m' = ex.date.month ∧ y' = ex.date.year
          · rw [if_pos hcond, if_pos ⟨hcond.1, hcond.2.1, hcond.2.2⟩]
            ring
          · rw [if_neg hcond, if_neg (by
              intro ⟨h1, h2, h3⟩
              exact hcond ⟨h1, h2, h3⟩)]
            ring
      · exact all_removeFirstExpense hn id
  | updateE id desc a c dt =>
    simp only [applyOp]
    unfold updateExpense
    cases hfind : findExpense s id with
    | none => exact ⟨hc, hu, hn⟩
    | some old =>
      have hmem : old ∈ s.expenses := List.mem_of_find?_eq_some hfind
      have hnd0 : normalDate old.date = true := by
        unfold expensesNormal at hn
        rw [List.all_eq_true] at hn
        exact hn old hmem
      simp only [opOk] at hop
      rw [hfind] at hop
      dsimp only at hop ⊢
      rw [Bool.and_eq_true] at hop
      have hnd1 : normalDate dt = true := hop.1
      by_cases hcat : old.category = c
      · have hbeq : (old.date.month = dt.month ∧ old.date.year = dt.year) := by
          rw [if_pos hcat] at hop
          have := hop.2
          rw [Bool.and_eq_true, decide_eq_true_iff, decide_eq_true_iff] at this
          exact this
        rw [if_pos hcat]
        refine ⟨?_, uniqueKeysB_incFirst hu _ _ _ _,
          all_replaceFirstExpense hn (by simpa using hnd1) id⟩
        rw [consistentB_iff]
        show ∀ b ∈ incFirst s.budgets c dt.month dt.year (a - old.amount), _
        apply incFirst_pointwise hu _ _ _ _
          (fun c' m' y' => scanSpent s.expenses c' m' y')
        · exact (consistentB_iff s).mp hc
        · intro c' m' y'
          show scanSpent (replaceFirstExpense s.expenses id
            ⟨id, desc, a, c, dt⟩) c' m' y' = _
          rw [scanSpent_replaceFirst hfind, contrib_of_normal hnd0,
            contrib_of_normal (e := ⟨id, desc, a, c, dt⟩) hnd1]
          show scanSpent s.expenses c' m' y'
              - (if old.category = c' ∧ m' = old.date.month ∧ y' = old.date.year
                  then old.amount else 0)
              + (if c = c' ∧ m' = dt.month ∧ y' = dt.year then a else 0) = _
          rw [hcat, hbeq.1, hbeq.2]
          by_cases hcond : c = c' ∧ m' = dt.month ∧ y' = dt.year
          · rw [if_pos hcond, if_pos hcond, if_pos hcond]
            ring
          · rw [if_neg hcond, if_neg hcond, if_neg hcond]
            ring
      · rw [if_neg hcat]
        refine ⟨?_, uniqueKeysB_incFirst (uniqueKeysB_incFirst hu _ _ _ _) _ _ _ _,
          all_replaceFirstExpense hn (by simpa using hnd1) id⟩
        rw [consistentB_iff]
        show ∀ b ∈ incFirst
          (incFirst s.budgets old.category old.date.month old.date.year
            (-old.amount)) c dt.month dt.year a, _
        apply incFirst_pointwise (uniqueKeysB_incFirst hu _ _ _ _) _ _ _ _
          (fun c' m' y' => scanSpent s.expenses c' m' y'
            + (if old.category = c' ∧ m' = old.date.month ∧ y' = old.date.year
                then -old.amount else 0))
        · refine incFirst_pointwise hu _ _ _ _
            (fun c' m' y' => scanSpent s.expenses c' m' y')
            (fun c' m' y' => scanSpent s.expenses c' m' y'
              + (if old.category = c' ∧ m' = old.date.month ∧
                    y' = old.date.year then -old.amount else 0)) ?_ ?_
          · exact (consistentB_iff s).mp hc
          · intro c' m' y'
            rfl
        · intro c' m' y'
          show scanSpent (replaceFirstExpense s.expenses id
            ⟨id, desc, a, c, dt⟩) c' m' y' = _
          rw [scanSpent_replaceFirst hfind, contrib_of_normal hnd0,
            contrib_of_normal (e := ⟨id, desc, a, c, dt⟩) hnd1]
          show scanSpent s.expenses c' m' y'
              - (if old.category = c' ∧ m' = old.date.month ∧ y' = old.date.year
                  then old.amount else 0)
              + (if c = c' ∧ m' = dt.month ∧ y' = dt.year then a else 0) = _
          by_cases h0 : old.category = c' ∧ m' = old.date.month ∧
              y' = old.date.year
          · rw [if_pos h0, if_pos h0]
            by_cases h1 : c = c' ∧ m' = dt.month ∧ y' = dt.year
            · rw [if_pos h1]
              ring
            · rw [if_neg h1]
              ring
          · rw [if_neg h0, if_neg h0]
            by_cases h1 : c = c' ∧ m' = dt.month ∧ y' = dt.year
            · rw [if_pos h1]
              ring
            · rw [if_neg h1]
              ring

/-- Every admissible run preserves the three invariants. -/
lemma applyOps_good {s : State} {ops : List Op} (hc : consistentB s = true)
    (hu : uniqueKeysB s.budgets = true)
    (hn : expensesNormal s.expenses = true)
    (ha : opsAdmissible s ops = true) :
    consistentB (applyOps s ops) = true ∧
      uniqueKeysB (applyOps s ops).budgets = true ∧
      expensesNormal (applyOps s ops).expenses = true := by
  induction ops generalizing s with
  | nil => exact ⟨hc, hu, hn⟩
  | cons op rest ih =>
    unfold opsAdmissible at ha
    rw [Bool.and_eq_true] at ha
    obtain ⟨hc', hu', hn'⟩ := applyOp_good hc hu hn ha.1
    exact ih hc' hu' hn' ha.2

/-- On a consistent state the bulk refresh rewrites every `spentAmount`
with the value it already holds. -/
lemma bulkRefresh_budgets_of_consistent {s : State}
    (hc : consistentB s = true) : (bulkRefresh s).budgets = s.budgets := by
  show s.budgets.map _ = s.budgets
  rw [consistentB_iff] at hc
  calc s.budgets.map (fun b =>
        { b with spentAmount := scanSpent s.expenses b.category b.month b.year })
      = s.budgets.map id := by
        apply List.map_congr_left
        intro b hb
        rw [← hc b hb]
        rfl
    _ = s.budgets := List.map_id s.budgets

/-! ### Claim theorems -/

/-- C1: after the bulk refresh, every budget of the owner carries a
`spentAmount` equal to the sum of the owner's expense amounts with matching
category and date inside the budget's `[monthStart, monthEnd]` window —
whatever the cached values were before. -/
theorem refresh_restores_invariant (s : State) (b : Budget)
    (hb : b ∈ (bulkRefresh s).budgets) :
    b.spentAmount =
      scanSpent (bulkRefresh s).expenses b.category b.month b.year := by
  obtain ⟨b0, hb0, rfl⟩ := List.mem_map.mp hb
  rfl

theorem refresh_restores_invariant_witness :
    (Budget.mk 7 "Food" 2 2024 500 100) ∈
        (bulkRefresh (State.mk
          [⟨1, "lunch", 100, "Food", ⟨2024, 2, 10, 0⟩⟩] []
          [⟨7, "Food", 2, 2024, 500, 55⟩])).budgets ∧
      (Budget.mk 7 "Food" 2 2024 500 100).spentAmount =
        scanSpent (bulkRefresh (State.mk
          [⟨1, "lunch", 100, "Food", ⟨2024, 2, 10, 0⟩⟩] []
          [⟨7, "Food", 2, 2024, 500, 55⟩])).expenses "Food" 2 2024 :=
  ⟨by decide, refresh_restores_invariant _ _ (by decide)⟩

/-- C2 refuted at two concrete runs, each starting from a consistent state:
(a) a same-category update that moves the date from March to April 2024
leaves the March cache stale, so the bulk refresh changes it; (b) a create
dated 2024-03-31T23:59:59.999 is counted incrementally but lies outside the
refresh scan window, so the bulk refresh changes the cache again. -/
theorem incremental_equals_bulk_cex :
    (consistentB (State.mk [⟨1, "m", 100, "Food", ⟨2024, 2, 10, 0⟩⟩] []
        [⟨1, "Food", 2, 2024, 500, 100⟩]) = true ∧
      (bulkRefresh (applyOps (State.mk [⟨1, "m", 100, "Food", ⟨2024, 2, 10, 0⟩⟩] []
          [⟨1, "Food", 2, 2024, 500, 100⟩])
        [Op.updateE 1 "m" 100 "Food" ⟨2024, 3, 10, 0⟩])).budgets ≠
      (applyOps (State.mk [⟨1, "m", 100, "Food", ⟨2024, 2, 10, 0⟩⟩] []
          [⟨1, "Food", 2, 2024, 500, 100⟩])
        [Op.updateE 1 "m" 100 "Food" ⟨2024, 3, 10, 0⟩]).budgets) ∧
    (consistentB (State.mk [] [] [⟨1, "Food", 2, 2024, 500, 0⟩]) = true ∧
      (bulkRefresh (applyOps (State.mk [] [] [⟨1, "Food", 2, 2024, 500, 0⟩])
        [Op.createE 1 "m" 100 "Food" ⟨2024, 2, 31, 86399999⟩])).budgets ≠
      (applyOps (State.mk [] [] [⟨1, "Food", 2, 2024, 500, 0⟩])
        [Op.createE 1 "m" 100 "Food" ⟨2024, 2, 31, 86399999⟩]).budgets) := by
  decide

/-- C2 amended: starting from a consistent state with unique budget keys
and normal expense dates, any admissible run of expense mutations — every
mutated date normal, and every update that keeps the category also keeps
the `(month, year)` bucket — leaves the state consistent, so a bulk refresh
afterwards changes no budget at all. -/
theorem incremental_equals_bulk_amended (s : State) (ops : List Op)
    (hc : consistentB s = true) (hu : uniqueKeysB s.budgets = true)
    (hn : expensesNormal s.expenses = true)
    (ha : opsAdmissible s ops = true) :
    (bulkRefresh (applyOps s ops)).budgets = (applyOps s ops).budgets :=
  bulkRefresh_budgets_of_consistent (applyOps_good hc hu hn ha).1

theorem incremental_equals_bulk_amended_witness :
    (consistentB (State.mk [⟨1, "a", 30, "Food", ⟨2024, 2, 5, 0⟩⟩] []
        [⟨1, "Food", 2, 2024, 500, 30⟩, ⟨2, "Transport", 2, 2024, 200, 0⟩]) = true ∧
      uniqueKeysB [⟨1, "Food", 2, 2024, 500, 30⟩,
        ⟨2, "Transport", 2, 2024, 200, 0⟩] = true ∧
      expensesNormal [⟨1, "a", 30, "Food", ⟨2024, 2, 5, 0⟩⟩] = true ∧
      opsAdmissible (State.mk [⟨1, "a", 30, "Food", ⟨2024, 2, 5, 0⟩⟩] []
        [⟨1, "Food", 2, 2024, 500, 30⟩, ⟨2, "Transport", 2, 2024, 200, 0⟩])
        [Op.createE 2 "b" 20 "Food" ⟨2024, 2, 10, 0⟩,
         Op.updateE 2 "b" 25 "Transport" ⟨2024, 2, 10, 0⟩,
         Op.deleteE 1] = true) ∧
    (bulkRefresh (applyOps (State.mk [⟨1, "a", 30, "Food", ⟨2024, 2, 5, 0⟩⟩] []
        [⟨1, "Food", 2, 2024, 500, 30⟩, ⟨2, "Transport", 2, 2024, 200, 0⟩])
      [Op.createE 2 "b" 20 "Food" ⟨2024, 2, 10, 0⟩,
       Op.updateE 2 "b" 25 "Transport" ⟨2024, 2, 10, 0⟩,
       Op.deleteE 1])).budgets =
    (applyOps (State.mk [⟨1, "a", 30, "Food", ⟨2024, 2, 5, 0⟩⟩] []
        [⟨1, "Food", 2, 2024, 500, 30⟩, ⟨2, "Transport", 2, 2024, 200, 0⟩])
      [Op.createE 2 "b" 20 "Food" ⟨2024, 2, 10, 0⟩,
       Op.updateE 2 "b" 25 "Transport" ⟨2024, 2, 10, 0⟩,
       Op.deleteE 1]).budgets :=
  ⟨⟨by decide, by decide, by decide, by decide⟩,
    incremental_equals_bulk_amended _ _ (by decide) (by decide) (by decide)
      (by decide)⟩

/-- C3 refuted: updating expense 1 (Food, 100, 2024-03-10) to (Food, 120,
2024-04-10) — category unchanged, date moved to the next month — leaves the
March Food budget at 100 and bumps the April Food budget by the delta 20,
not the two-bucket result ([0, 120]) the claim predicts. -/
theorem update_two_bucket_cex :
    ((updateExpense (State.mk [⟨1, "m", 100, "Food", ⟨2024, 2, 10, 0⟩⟩] []
        [⟨1, "Food", 2, 2024, 500, 100⟩, ⟨2, "Food", 3, 2024, 400, 0⟩])
      1 "m" 120 "Food" ⟨2024, 3, 10, 0⟩).budgets.map (fun b => b.spentAmount)
        = [100, 20]) ∧
    ¬ ((updateExpense (State.mk [⟨1, "m", 100, "Food", ⟨2024, 2, 10, 0⟩⟩] []
        [⟨1, "Food", 2, 2024, 500, 100⟩, ⟨2, "Food", 3, 2024, 400, 0⟩])
      1 "m" 120 "Food" ⟨2024, 3, 10, 0⟩).budgets.map (fun b => b.spentAmount)
        = [0, 120]) := by
  decide

/-- C3 amended: the expense-update handler branches on category equality
only.  With unchanged category it applies the single delta `A1 − A0` to the
budget matching the *new* date's `(month, year)` bucket — even when the
date moved to a different bucket, in which case the old bucket's budget is
left untouched.  Only when the category changed does it decrement the old
`(category, old-bucket)` budget by `A0` and increment the new
`(category, new-bucket)` budget by `A1`.  `updateDelta` is exactly that
per-key delta. -/
theorem update_budget_delta_rule (s : State) (id : Nat) (desc : String)
    (a1 : Int) (c1 : String) (d1 : Date) (old : Expense)
    (hfind : findExpense s id = some old)
    (hu : uniqueKeysB s.budgets = true) :
    (updateExpense s id desc a1 c1 d1).budgets =
      s.budgets.map (fun b =>
        { b with spentAmount := b.spentAmount +
            updateDelta old a1 c1 d1 b.category b.month b.year }) := by
  unfold updateExpense
  rw [hfind]
  dsimp only
  by_cases hcat : old.category = c1
  · rw [if_pos hcat, incFirst_eq_map hu]
    apply List.map_congr_left
    intro b hb
    unfold updateDelta
    rw [if_pos hcat]
    by_cases hk : budgetKeyMatches b c1 d1.month d1.year = true
    · rw [if_pos hk,
        if_pos ((budgetKeyMatches_true_iff b c1 d1.month d1.year).mp hk)]
    · rw [if_neg hk,
        if_neg (fun hp =>
          hk ((budgetKeyMatches_true_iff b c1 d1.month d1.year).mpr hp)),
        add_zero]
  · rw [if_neg hcat,
      incFirst_eq_map (uniqueKeysB_incFirst hu old.category old.date.month
        old.date.year (-old.amount)),
      incFirst_eq_map hu, List.map_map]
    apply List.map_congr_left
    intro b hb
    simp only [Function.comp_apply]
    unfold updateDelta
    rw [if_neg hcat]
    by_cases h0 : budgetKeyMatches b old.category old.date.month
        old.date.year = true
    · obtain ⟨g1, g2, g3⟩ := (budgetKeyMatches_true_iff b old.category
        old.date.month old.date.year).mp h0
      rw [if_pos h0, budgetKeyMatches_bump]
      by_cases h1 : budgetKeyMatches b c1 d1.month d1.year = true
      · obtain ⟨k1, hk2, hk3⟩ := (budgetKeyMatches_true_iff b c1 d1.month
          d1.year).mp h1
        exact absurd (g1.symm.trans k1) hcat
      · rw [if_neg h1, if_pos ⟨g1, g2, g3⟩,
          if_neg (fun hp =>
            h1 ((budgetKeyMatches_true_iff b c1 d1.month d1.year).mpr hp)),
          add_zero]
    · rw [if_neg h0,
        if_neg (fun hp => h0 ((budgetKeyMatches_true_iff b old.category
          old.date.month old.date.year).mpr hp))]
      by_cases h1 : budgetKeyMatches b c1 d1.month d1.year = true
      · rw [if_pos h1,
          if_pos ((budgetKeyMatches_true_iff b c1 d1.month d1.year).mp h1),
          zero_add]
      · rw [if_neg h1,
          if_neg (fun hp =>
            h1 ((budgetKeyMatches_true_iff b c1 d1.month d1.year).mpr hp)),
          zero_add, add_zero]

theorem update_budget_delta_rule_witness :
    (findExpense (State.mk [⟨1, "m", 100, "Food", ⟨2024, 2, 10, 0⟩⟩] []
        [⟨1, "Food", 2, 2024, 500, 100⟩, ⟨2, "Food", 3, 2024, 400, 0⟩]) 1 =
      some ⟨1, "m", 100, "Food", ⟨2024, 2, 10, 0⟩⟩ ∧
     uniqueKeysB [⟨1, "Food", 2, 2024, 500, 100⟩,
        ⟨2, "Food", 3, 2024, 400, 0⟩] = true) ∧
    (updateExpense (State.mk [⟨1, "m", 100, "Food", ⟨2024, 2, 10, 0⟩⟩] []
        [⟨1, "Food", 2, 2024, 500, 100⟩, ⟨2, "Food", 3, 2024, 400, 0⟩])
      1 "m" 120 "Food" ⟨2024, 3, 10, 0⟩).budgets =
      [⟨1, "Food", 2, 2024, 500, 100⟩, ⟨2, "Food", 3, 2024, 400, 20⟩] :=
  ⟨⟨by decide, by decide⟩,
    update_budget_delta_rule _ 1 "m" 120 "Food" ⟨2024, 3, 10, 0⟩
      ⟨1, "m", 100, "Food", ⟨2024, 2, 10, 0⟩⟩ (by decide) (by decide)⟩

/-- C4: deleting an expense applies an exact `$inc` of `−amount` to the
budget matching `(category, month-of-date, year-of-date)` — and only to it
— with no clamping at zero: the stored value is the plain difference, which
may be negative. -/
theorem delete_decrements_unclamped (s : State) (id : Nat) (ex : Expense)
    (hfind : findExpense s id = some ex)
    (hu : uniqueKeysB s.budgets = true) :
    (deleteExpense s id).budgets =
      s.budgets.map (fun b =>
        { b with spentAmount := b.spentAmount -
            (if b.category = ex.category ∧ b.month = ex.date.month ∧
                b.year = ex.date.year then ex.amount else 0) }) := by
  unfold deleteExpense
  rw [hfind]
  dsimp only
  rw [incFirst_eq_map hu]
  apply List.map_congr_left
  intro b hb
  by_cases hk : budgetKeyMatches b ex.category ex.date.month ex.date.year = true
  · rw [if_pos hk,
      if_pos ((budgetKeyMatches_true_iff b ex.category ex.date.month
        ex.date.year).mp hk), sub_eq_add_neg]
  · rw [if_neg hk,
      if_neg (fun hp => hk ((budgetKeyMatches_true_iff b ex.category
        ex.date.month ex.date.year).mpr hp)), sub_zero]

theorem delete_decrements_unclamped_witness :
    (findExpense (State.mk [⟨1, "m", 100, "Food", ⟨2024, 2, 10, 0⟩⟩] []
        [⟨1, "Food", 2, 2024, 500, 50⟩]) 1 =
        some ⟨1, "m", 100, "Food", ⟨2024, 2, 10, 0⟩⟩ ∧
      uniqueKeysB [⟨1, "Food", 2, 2024, 500, 50⟩] = true) ∧
    (deleteExpense (State.mk [⟨1, "m", 100, "Food", ⟨2024, 2, 10, 0⟩⟩] []
        [⟨1, "Food", 2, 2024, 500, 50⟩]) 1).budgets =
      [⟨1, "Food", 2, 2024, 500, -50⟩] :=
  ⟨⟨by decide, by decide⟩,
    delete_decrements_unclamped _ 1 ⟨1, "m", 100, "Food", ⟨2024, 2, 10, 0⟩⟩
      (by decide) (by decide)⟩

/-- C5 refuted: the expense dated 2024-03-31T23:59:59.999 — the last
instant of March 2024 — is not counted by the seeding/refresh scan
(`scanSpent` yields `0`, and budget creation seeds `spentAmount = 0`), yet
the incremental create path counts it in the March bucket (`+100`), so the
paths disagree on the last instant. -/
theorem month_boundary_cex :
    scanSpent [⟨1, "m", 100, "Food", ⟨2024, 2, 31, 86399999⟩⟩]
      "Food" 2 2024 = 0 ∧
    (postBudget (State.mk [⟨1, "m", 100, "Food", ⟨2024, 2, 31, 86399999⟩⟩]
        [] []) 5 "Food" 500 2 2024).2 =
      BudgetCreateResponse.created ⟨5, "Food", 2, 2024, 500, 0⟩ ∧
    (createExpense (State.mk [] [] [⟨1, "Food", 2, 2024, 500, 0⟩]) 1 "m" 100
        "Food" ⟨2024, 2, 31, 86399999⟩).budgets =
      [⟨1, "Food", 2, 2024, 500, 100⟩] := by
  decide

/-- C5 amended: the first instant of a month lies in the scan window and
carries that month's `(month, year)` bucket, so every path counts it there;
the last instant also carries that month's bucket — the incremental paths
count it — but it lies *outside* the scan window, whose upper end is
midnight starting the last day, so seeding and bulk refresh exclude it; and
the scan window never captures a date of a different bucket. -/
theorem month_boundary_amended (y : Int) (m : Nat) :
    (inRangeB (monthStart y m) (monthStart y m) (monthEnd y m) = true ∧
      (monthStart y m).month = m ∧ (monthStart y m).year = y) ∧
    ((lastInstant y m).month = m ∧ (lastInstant y m).year = y ∧
      inRangeB (lastInstant y m) (monthStart y m) (monthEnd y m) = false) ∧
    (∀ d : Date, inRangeB d (monthStart y m) (monthEnd y m) = true →
      d.year = y ∧ d.month = m) := by
  refine ⟨⟨?_, rfl, rfl⟩, ⟨rfl, rfl, ?_⟩, fun d hd => inRangeB_bucket hd⟩
  · have hdim := daysInMonth_pos y m
    unfold inRangeB monthStart monthEnd
    rw [Bool.and_eq_true, dateLE_iff, dateLE_iff]
    dsimp only
    omega
  · have h2 : dateLE (lastInstant y m) (monthEnd y m) = false := by
      rw [Bool.eq_false_iff]
      intro hcontra
      rw [dateLE_iff] at hcontra
      unfold lastInstant monthEnd at hcontra
      dsimp only at hcontra
      omega
    unfold inRangeB
    rw [h2, Bool.and_false]

theorem month_boundary_amended_witness :
    (inRangeB (monthStart 2024 1) (monthStart 2024 1) (monthEnd 2024 1) = true ∧
      (monthStart 2024 1).month = 1 ∧ (monthStart 2024 1).year = 2024) ∧
    ((lastInstant 2024 1).month = 1 ∧ (lastInstant 2024 1).year = 2024 ∧
      inRangeB (lastInstant 2024 1) (monthStart 2024 1) (monthEnd 2024 1) =
        false) ∧
    (∀ d : Date, inRangeB d (monthStart 2024 1) (monthEnd 2024 1) = true →
      d.year = 2024 ∧ d.month = 1) :=
  month_boundary_amended 2024 1

/-- C6 refuted: a `[start, end]` query with `start > end` (2024-05-01 down
to 2024-01-01) is not rejected — the stats route answers with the computed
zeroed summary and the reports route with zeroed period totals, both over
the literal, unswapped range. -/
theorem inverted_range_cex :
    dateLE ⟨2024, 4, 1, 0⟩ ⟨2024, 0, 1, 0⟩ = false ∧
    expenseStatsSummary [⟨1, "m", 100, "Food", ⟨2024, 1, 15, 0⟩⟩]
      (some (⟨2024, 4, 1, 0⟩, ⟨2024, 0, 1, 0⟩)) = ⟨0, 0, 0⟩ ∧
    reportPeriodTotals (State.mk [⟨1, "m", 100, "Food", ⟨2024, 1, 15, 0⟩⟩]
        [⟨1, "i", 50, "Salary", ⟨2024, 1, 20, 0⟩⟩] [])
      ⟨2024, 4, 1, 0⟩ ⟨2024, 0, 1, 0⟩ = (0, 0, 0, 0) :=
  ⟨by decide, rfl, by decide⟩

/-- C6 amended: an inverted range is not rejected and not swapped: the
stats summary runs the aggregation over the literal `[start, end]` window,
which matches no document when `start > end`, so the response is the
zeroed summary (a normal `200`, not an error). -/
theorem inverted_range_zeroed (es : List Expense) (sd ed : Date)
    (h : dateLE sd ed = false) :
    expenseStatsSummary es (some (sd, ed)) = ⟨0, 0, 0⟩ := by
  have hfil : es.filter (fun e => dateFilter sd ed e.date) = [] := by
    rw [List.filter_eq_nil_iff]
    intro e he hpe
    unfold dateFilter at hpe
    rw [Bool.and_eq_true] at hpe
    have htr := dateLE_trans hpe.1 hpe.2
    rw [h] at htr
    simp at htr
  unfold expenseStatsSummary
  dsimp only
  rw [hfil]

theorem inverted_range_zeroed_witness :
    dateLE ⟨2025, 6, 2, 0⟩ ⟨2025, 2, 2, 0⟩ = false ∧
    expenseStatsSummary [⟨1, "m", 40, "Food", ⟨2025, 3, 2, 0⟩⟩]
      (some (⟨2025, 6, 2, 0⟩, ⟨2025, 2, 2, 0⟩)) = ⟨0, 0, 0⟩ :=
  ⟨by decide, inverted_range_zeroed _ _ _ (by decide)⟩

/-- C7: the monthly series always holds exactly 6 tuples; entry `j` covers
the month `5 − j` months before the current one (consecutive buckets in
chronological order, the last being the current month); and a month window
containing no transaction yields a `{income: 0, expenses: 0}` tuple rather
than being omitted. -/
theorem monthly_series_dense (is : List Income) (es : List Expense)
    (now : Date) (hm : now.month < 12) :
    (monthlySeries is es now).length = 6 ∧
    (∀ j p, (monthlySeries is es now).get? j = some p →
      ((p.bucketYear, p.bucketMonth) =
          jsYM now.year ((now.month : Int) + (j : Int) - 5) ∧
        (is.all (fun t => !dateFilter (monthStart p.bucketYear p.bucketMonth)
            (monthEndOfDay p.bucketYear p.bucketMonth) t.date) = true →
          p.income = 0) ∧
        (es.all (fun t => !dateFilter (monthStart p.bucketYear p.bucketMonth)
            (monthEndOfDay p.bucketYear p.bucketMonth) t.date) = true →
          p.expenses = 0))) ∧
    (∀ p, (monthlySeries is es now).get? 5 = some p →
      p.bucketYear = now.year ∧ p.bucketMonth = now.month) := by
  have hlen : (monthlySeries is es now).length = 6 := by
    unfold monthlySeries
    rw [List.length_map, List.length_range]
  refine ⟨hlen, ?_, ?_⟩
  · intro j p hp
    have hj : j < 6 := by
      by_contra hge
      have hnone : (monthlySeries is es now).get? j = none :=
        List.get?_eq_none.mpr (by omega)
      rw [hnone] at hp
      exact Option.noConfusion hp
    unfold monthlySeries at hp
    rw [List.get?_map, List.get?_range hj] at hp
    injection hp with hp
    subst hp
    dsimp only
    refine ⟨?_, ?_, ?_⟩
    · have harg : (now.month : Int) - ((5 - j : Nat) : Int) =
          (now.month : Int) + (j : Int) - 5 := by omega
      rw [harg]
    · intro hall
      unfold sumIncomesIn
      have hfil : is.filter (fun i => dateFilter
          (monthStart (jsYM now.year ((now.month : Int) -
            ((5 - j : Nat) : Int))).1
              (jsYM now.year ((now.month : Int) - ((5 - j : Nat) : Int))).2)
          (monthEndOfDay (jsYM now.year ((now.month : Int) -
            ((5 - j : Nat) : Int))).1
              (jsYM now.year ((now.month : Int) - ((5 - j : Nat) : Int))).2)
          i.date) = [] := by
        rw [List.filter_eq_nil_iff]
        intro t ht hpt
        rw [List.all_eq_true] at hall
        have hneg := hall t ht
        rw [hpt] at hneg
        simp at hneg
      rw [hfil]
      rfl
    · intro hall
      unfold sumExpensesIn
      have hfil : es.filter (fun e => dateFilter
          (monthStart (jsYM now.year ((now.month : Int) -
            ((5 - j : Nat) : Int))).1
              (jsYM now.year ((now.month : Int) - ((5 - j : Nat) : Int))).2)
          (monthEndOfDay (jsYM now.year ((now.month : Int) -
            ((5 - j : Nat) : Int))).1
              (jsYM now.year ((now.month : Int) - ((5 - j : Nat) : Int))).2)
          e.date) = [] := by
        rw [List.filter_eq_nil_iff]
        intro t ht hpt
        rw [List.all_eq_true] at hall
        have hneg := hall t ht
        rw [hpt] at hneg
        simp at hneg
      rw [hfil]
      rfl
  · intro p hp
    unfold monthlySeries at hp
    rw [List.get?_map, List.get?_range (by omega)] at hp
    injection hp with hp
    subst hp
    dsimp only
    unfold jsYM
    dsimp only
    constructor
    · omega
    · omega

theorem monthly_series_dense_witness :
    (⟨2024, 7, 15, 0⟩ : Date).month < 12 ∧
    ((monthlySeries ([] : List Income)
        [⟨1, "m", 40, "Food", ⟨2024, 7, 3, 0⟩⟩] ⟨2024, 7, 15, 0⟩).length = 6 ∧
      (∀ j p, (monthlySeries ([] : List Income)
          [⟨1, "m", 40, "Food", ⟨2024, 7, 3, 0⟩⟩]
          ⟨2024, 7, 15, 0⟩).get? j = some p →
        ((p.bucketYear, p.bucketMonth) =
            jsYM (⟨2024, 7, 15, 0⟩ : Date).year
              (((⟨2024, 7, 15, 0⟩ : Date).month : Int) + (j : Int) - 5) ∧
          (([] : List Income).all (fun t => !dateFilter
              (monthStart p.bucketYear p.bucketMonth)
              (monthEndOfDay p.bucketYear p.bucketMonth) t.date) = true →
            p.income = 0) ∧
          (([⟨1, "m", 40, "Food", ⟨2024, 7, 3, 0⟩⟩] : List Expense).all
              (fun t => !dateFilter (monthStart p.bucketYear p.bucketMonth)
                (monthEndOfDay p.bucketYear p.bucketMonth) t.date) = true →
            p.expenses = 0))) ∧
      (∀ p, (monthlySeries ([] : List Income)
          [⟨1, "m", 40, "Food", ⟨2024, 7, 3, 0⟩⟩]
          ⟨2024, 7, 15, 0⟩).get? 5 = some p →
        p.bucketYear = 2024 ∧ p.bucketMonth = 7)) :=
  ⟨by decide, monthly_series_dense _ _ ⟨2024, 7, 15, 0⟩ (by decide)⟩

/-- C8: with a budget already present at the same `(category, month, year)`
key, a valid creation request is answered by the duplicate-budget conflict
response and the state is returned unchanged; the conflict response is a
different constructor from the generic validation-failure response. -/
theorem budget_create_conflict (s : State) (id : Nat) (category : String)
    (amt : Int) (m : Nat) (y : Int)
    (hv : validBudgetInput category amt m y = true)
    (hdup : s.budgets.any (fun b => budgetKeyMatches b category m y) = true) :
    postBudget s id category amt m y =
      (s, BudgetCreateResponse.conflict category m y) ∧
      BudgetCreateResponse.conflict category m y ≠
        BudgetCreateResponse.validationFailed := by
  constructor
  · unfold postBudget
    rw [if_pos hv]
    cases hfind : s.budgets.find? (fun b => budgetKeyMatches b category m y) with
    | some b0 => rfl
    | none =>
      rw [List.find?_eq_none] at hfind
      rw [List.any_eq_true] at hdup
      obtain ⟨b, hb, hpb⟩ := hdup
      exact absurd hpb (by simpa using hfind b hb)
  · intro hcontra
    exact BudgetCreateResponse.noConfusion hcontra

theorem budget_create_conflict_witness :
    (validBudgetInput "Food" 500 2 2024 = true ∧
      [(⟨1, "Food", 2, 2024, 500, 0⟩ : Budget)].any
        (fun b => budgetKeyMatches b "Food" 2 2024) = true) ∧
    (postBudget (State.mk [] [] [⟨1, "Food", 2, 2024, 500, 0⟩]) 9 "Food" 500
        2 2024 =
      (State.mk [] [] [⟨1, "Food", 2, 2024, 500, 0⟩],
        BudgetCreateResponse.conflict "Food" 2 2024) ∧
      BudgetCreateResponse.conflict "Food" 2 2024 ≠
        BudgetCreateResponse.validationFailed) :=
  ⟨⟨by decide, by decide⟩,
    budget_create_conflict _ 9 "Food" 500 2 2024 (by decide) (by decide)⟩

/-- C9: the income routes never touch the `Budget` collection — after an
income create, update or delete, the budget list (hence every field of
every budget) is exactly what it was. -/
theorem income_ops_frame_budgets (s : State) (id : Nat) (desc : String)
    (amt : Int) (cat : String) (d : Date) :
    (createIncome s id desc amt cat d).budgets = s.budgets ∧
    (updateIncome s id desc amt cat d).budgets = s.budgets ∧
    (deleteIncome s id).budgets = s.budgets := by
  refine ⟨rfl, ?_, ?_⟩
  · unfold updateIncome
    cases findIncome s id <;> rfl
  · unfold deleteIncome
    cases findIncome s id <;> rfl

/-- C10: whenever the budget-update route answers `updated b1`, the stored
document carries the requested category, month, year and allocation, and
its `spentAmount` was recomputed from scratch as the bounded scan over the
*new* category and month window — the previously cached value never
survives. -/
theorem budget_update_recomputes (s : State) (id : Nat) (category : String)
    (amt : Int) (m : Nat) (y : Int) (b1 : Budget)
    (h : (putBudget s id category amt m y).2 =
      BudgetUpdateResponse.updated b1) :
    b1.category = category ∧ b1.month = m ∧ b1.year = y ∧
      b1.budgetAmount = amt ∧
      b1.spentAmount = scanSpent s.expenses category m y := by
  unfold putBudget at h
  by_cases hv : validBudgetInput category amt m y = true
  · rw [if_pos hv] at h
    cases hfind : s.budgets.find? (fun b => decide (b.id = id)) with
    | none =>
      rw [hfind] at h
      exact BudgetUpdateResponse.noConfusion h
    | some b0 =>
      rw [hfind] at h
      dsimp only at h
      by_cases hconf : (s.budgets.any fun b =>
          decide (b.id ≠ id) && budgetKeyMatches b category m y) = true
      · rw [if_pos hconf] at h
        exact BudgetUpdateResponse.noConfusion h
      · rw [if_neg hconf] at h
        dsimp only at h
        injection h with h
        subst h
        exact ⟨rfl, rfl, rfl, rfl, rfl⟩
  · rw [if_neg hv] at h
    exact BudgetUpdateResponse.noConfusion h

theorem budget_update_recomputes_witness :
    ((putBudget (State.mk [⟨1, "m", 80, "Transport", ⟨2024, 3, 10, 0⟩⟩] []
        [⟨1, "Food", 2, 2024, 500, 123⟩]) 1 "Transport" 300 3 2024).2 =
      BudgetUpdateResponse.updated ⟨1, "Transport", 3, 2024, 300, 80⟩) ∧
    ((⟨1, "Transport", 3, 2024, 300, 80⟩ : Budget).category = "Transport" ∧
      (⟨1, "Transport", 3, 2024, 300, 80⟩ : Budget).month = 3 ∧
      (⟨1, "Transport", 3, 2024, 300, 80⟩ : Budget).year = 2024 ∧
      (⟨1, "Transport", 3, 2024, 300, 80⟩ : Budget).budgetAmount = 300 ∧
      (⟨1, "Transport", 3, 2024, 300, 80⟩ : Budget).spentAmount =
        scanSpent [⟨1, "m", 80, "Transport", ⟨2024, 3, 10, 0⟩⟩]
          "Transport" 3 2024) :=
  ⟨by decide,
    budget_update_recomputes
      (State.mk [⟨1, "m", 80, "Transport", ⟨2024, 3, 10, 0⟩⟩] []
        [⟨1, "Food", 2, 2024, 500, 123⟩]) 1 "Transport" 300 3 2024
      ⟨1, "Transport", 3, 2024, 300, 80⟩ (by decide)⟩

end Fintracker
